import Mathlib

/-!
Verification development for the BrowseMe browser-automation tool suites
(`src/createBrowserTools.js`, two `createBrowserTools` variants).

The JavaScript tool definitions are shallowly embedded as pure Lean
functions.  Pages are modelled as lists of element records in document
order; the Playwright locator layer, the filesystem and the wall clock
are modelled as explicit inputs.  JavaScript strings are modelled as
Lean `String` over their character lists (ASCII is all the concrete
claims exercise); the JavaScript `RegExp` constructor and `test`
semantics are modelled by a small derivative-based engine for the
fragment of regex syntax the tool targets can use, with conservative
rejection (modelled as a construction-time throw) of constructs outside
the fragment, matching the fact that `new RegExp` throws on genuinely
invalid patterns such as an unmatched parenthesis.
-/

set_option autoImplicit false

/-! ### Character-list and string primitives -/

/-- Boolean test that `p` is a prefix of `l`. -/
def listStartsWith : List Char → List Char → Bool
  | [], _ => true
  | _ :: _, [] => false
  | a :: as, b :: bs => a == b && listStartsWith as bs

/-- Boolean test that `needle` occurs contiguously inside `hay`. -/
def listSubstr (needle : List Char) : List Char → Bool
  | [] => needle.isEmpty
  | b :: bs => listStartsWith needle (b :: bs) || listSubstr needle bs

/-- Boolean test that `suffix` is a suffix of `l`. -/
def listEndsWith (suffix l : List Char) : Bool :=
  listStartsWith suffix.reverse l.reverse

/-- Boolean test that string `s` starts with `pre`. -/
def strStartsWith (s pre : String) : Bool :=
  listStartsWith pre.data s.data

/-- Boolean test that string `hay` contains `needle` contiguously. -/
def strContains (hay needle : String) : Bool :=
  listSubstr needle.data hay.data

/-- Boolean test that string `s` ends with `suf`. -/
def strEndsWith (s suf : String) : Bool :=
  listEndsWith suf.data s.data

/-- Character list of `s` folded to lower case, modelling
`s.toLowerCase()` on the ASCII fragment. -/
def lowerChars (s : String) : List Char :=
  s.data.map Char.toLower

/-- Model of `hay.toLowerCase().includes(needle.toLowerCase())`. -/
def containsCI (hay needle : String) : Bool :=
  listSubstr (lowerChars needle) (lowerChars hay)

/-! ### A fragment of JavaScript regular expressions

`Click_Element` builds `new RegExp(target, "i")` and
`new RegExp("^" + target + "$", "i")` from the raw planner-supplied
target.  We model the regex abstract syntax, Brzozowski-derivative
matching, and a parser for the fragment consisting of literal
characters, escapes, `.`, groups and the postfix quantifiers
`*`, `+`, `?`.  Patterns outside the fragment (alternation, anchors in
the middle, character classes) and genuinely invalid patterns such as
an unmatched `(` are rejected: compilation returns `none`, which the
tool embedding treats as the `RegExp` constructor throwing. -/

inductive JsRegex where
  | fail : JsRegex
  | eps : JsRegex
  | lit : Char → JsRegex
  | any : JsRegex
  | seq : JsRegex → JsRegex → JsRegex
  | alt : JsRegex → JsRegex → JsRegex
  | star : JsRegex → JsRegex
deriving DecidableEq, Repr

/-- Does the regex accept the empty string? -/
def reNullable : JsRegex → Bool
  | .fail => false
  | .eps => true
  | .lit _ => false
  | .any => false
  | .seq a b => reNullable a && reNullable b
  | .alt a b => reNullable a || reNullable b
  | .star _ => true

/-- Brzozowski derivative of a regex by one character. -/
def reDeriv (c : Char) : JsRegex → JsRegex
  | .fail => .fail
  | .eps => .fail
  | .lit d => if c == d then .eps else .fail
  | .any => .eps
  | .seq a b =>
      if reNullable a then .alt (.seq (reDeriv c a) b) (reDeriv c b)
      else .seq (reDeriv c a) b
  | .alt a b => .alt (reDeriv c a) (reDeriv c b)
  | .star a => .seq (reDeriv c a) (.star a)

/-- Whole-word match of a regex against a character list. -/
def reFullMatch (r : JsRegex) (l : List Char) : Bool :=
  reNullable (l.foldl (fun acc ch => reDeriv ch acc) r)

/-- Does some prefix of `l` match `r`? -/
def reMatchPre : JsRegex → List Char → Bool
  | r, [] => reNullable r
  | r, c :: cs => reNullable r || reMatchPre (reDeriv c r) cs

/-- Model of `regex.test(l)`: does some contiguous slice of `l`
match `r`? -/
def reSearch : JsRegex → List Char → Bool
  | r, [] => reNullable r
  | r, c :: cs => reMatchPre r (c :: cs) || reSearch r cs

/-- Fold every literal of a regex to lower case; together with lowering
the subject string this models the `i` flag on the ASCII fragment. -/
def reLower : JsRegex → JsRegex
  | .fail => .fail
  | .eps => .eps
  | .lit c => .lit c.toLower
  | .any => .any
  | .seq a b => .seq (reLower a) (reLower b)
  | .alt a b => .alt (reLower a) (reLower b)
  | .star a => .star (reLower a)

/-- Model of `new RegExp(pat, "i").test(s)` (unanchored search). -/
def reTestI (r : JsRegex) (s : String) : Bool :=
  reSearch (reLower r) (lowerChars s)

/-- Model of `new RegExp("^" + pat + "$", "i").test(s)`: the anchored,
case-insensitive full match used by the `getByText` fallback. -/
def reFullI (r : JsRegex) (s : String) : Bool :=
  reFullMatch (reLower r) (lowerChars s)

/-- Combine the finished part of a parse with the pending last atom. -/
def reFlush (done : JsRegex) : Option JsRegex → JsRegex
  | none => done
  | some a => .seq done a

/-- Fuel-indexed recursive-descent parser for the modelled regex
fragment.  Returns the parsed regex together with the unconsumed
input (which is empty or starts with the `)` closing a group). -/
def parseReStep : Nat → List Char → JsRegex → Option JsRegex →
    Option (JsRegex × List Char)
  | 0, _, _, _ => none
  | _ + 1, [], done, last => some (reFlush done last, [])
  | fuel + 1, c :: rest, done, last =>
    if c == ')' then some (reFlush done last, c :: rest)
    else if c == '(' then
      match parseReStep fuel rest .eps none with
      | some (g, ')' :: rest2) => parseReStep fuel rest2 (reFlush done last) (some g)
      | _ => none
    else if c == '*' then
      match last with
      | some a => parseReStep fuel rest done (some (.star a))
      | none => none
    else if c == '+' then
      match last with
      | some a => parseReStep fuel rest done (some (.seq a (.star a)))
      | none => none
    else if c == '?' then
      match last with
      | some a => parseReStep fuel rest done (some (.alt a .eps))
      | none => none
    else if c == '\\' then
      match rest with
      | d :: rest2 => parseReStep fuel rest2 (reFlush done last) (some (.lit d))
      | [] => none
    else if c == '.' then parseReStep fuel rest (reFlush done last) (some .any)
    else if c == '|' || c == '^' || c == '$' || c == '[' then none
    else parseReStep fuel rest (reFlush done last) (some (.lit c))

/-- Model of `new RegExp(pat, "i")`: `some` compiled regex, or `none`
when the constructor throws (invalid pattern, or a pattern outside the
modelled fragment, conservatively). -/
def compileRegex (pat : String) : Option JsRegex :=
  match parseReStep (pat.data.length + 2) pat.data .eps none with
  | some (r, []) => some r
  | _ => none

/-- The compiled regex of a pattern, defaulting to the empty-set regex;
used to name the compiled form of concrete patterns in statements. -/
def reOfD (t : String) : JsRegex :=
  (compileRegex t).getD .fail

/-- Modelled `err.message` of the exception thrown by `new RegExp` on
an invalid pattern. -/
def regexErrorMessage (pat : String) : String :=
  "Invalid regular expression: /" ++ pat ++ "/i"

/-! ### The `Click_Element` tool (first suite)

An element record carries the pieces of browser state the four
strategies consult: the computed ARIA role and accessible name (used by
`page.getByRole`), the visible text (used by `page.getByText`) and the
set of CSS selectors that match the element (abstracting
`page.locator`); `elements` is the page in document order.
`clickError` models whether the live `click()` call on a given element
throws, and with which message. -/

structure ClickElem where
  role : String
  name : String
  text : String
  selectors : List String
deriving DecidableEq, Repr

structure ClickPage where
  elements : List ClickElem
  clickError : ClickElem → Option String

inductive ResolveStrategy where
  | roleButton
  | roleLink
  | textMatch
  | cssSelector
deriving DecidableEq, Repr

/-- Strategy 1 predicate: `getByRole("button", name regex)`. -/
def isButtonMatch (re : JsRegex) (e : ClickElem) : Bool :=
  e.role == "button" && reTestI re e.name

/-- Strategy 2 predicate: `getByRole("link", name regex)`. -/
def isLinkMatch (re : JsRegex) (e : ClickElem) : Bool :=
  e.role == "link" && reTestI re e.name

/-- Strategy 3 predicate: `getByText` with the anchored regex. -/
def isTextMatch (re : JsRegex) (e : ClickElem) : Bool :=
  reFullI re e.text

/-- Strategy 4 predicate: `page.locator(target)`. -/
def isCssMatch (t : String) (e : ClickElem) : Bool :=
  e.selectors.contains t

/-- The ordered resolution cascade of `Click_Element.execute`:
compile the target as a regex (a compile throw is an `Except.error`,
later caught by the surrounding try), then take the first strategy
whose locator has `count() > 0` and select its first match in document
order; `.ok none` is the all-strategies-empty case. -/
def clickResolve (p : ClickPage) (t : String) :
    Except String (Option (ResolveStrategy × ClickElem)) :=
  match compileRegex t with
  | none => .error (regexErrorMessage t)
  | some re =>
    match (p.elements.filter (isButtonMatch re)).head? with
    | some b => .ok (some (.roleButton, b))
    | none =>
      match (p.elements.filter (isLinkMatch re)).head? with
      | some e => .ok (some (.roleLink, e))
      | none =>
        match (p.elements.filter (isTextMatch re)).head? with
        | some e => .ok (some (.textMatch, e))
        | none =>
          match (p.elements.filter (isCssMatch t)).head? with
          | some e => .ok (some (.cssSelector, e))
          | none => .ok none

/-- The success message of each strategy branch. -/
def clickSuccessMessage : ResolveStrategy → String → String
  | .roleButton, t => "Successfully clicked button with text: " ++ t
  | .roleLink, t => "Successfully clicked link with text: " ++ t
  | .textMatch, t => "Successfully clicked element with text: " ++ t
  | .cssSelector, t => "Successfully clicked CSS selector: " ++ t

/-- Embedding of `Click_Element.execute`: every exception inside the
try block (regex construction, clicking) is caught and converted to a
string, so the embedding is `String`-valued on every input. -/
def Click_Element_execute (p : ClickPage) (t : String) : String :=
  match clickResolve p t with
  | .error m => "Error: Failed to click \"" ++ t ++ "\". Details: " ++ m
  | .ok none => "Error: No element found for target \"" ++ t ++ "\"."
  | .ok (some (s, e)) =>
    match p.clickError e with
    | some m => "Error: Failed to click \"" ++ t ++ "\". Details: " ++ m
    | none => clickSuccessMessage s t

/-! ### Navigation tools -/

/-- Outcome of the underlying browser navigation primitives for one
invocation: `gotoError` is the message `page.goto` rejects with (if
any), `idleError` likewise for `page.waitForLoadState`. -/
structure NavPage where
  gotoError : Option String
  idleError : Option String
deriving DecidableEq, Repr

/-- Embedding of `Open_web_page.execute` (first suite).  The source has
no try/catch, so a rejection of either awaited primitive propagates out
of the tool; the embedding returns it as `Except.error`. -/
def Open_web_page_execute (p : NavPage) (url : String) :
    Except String String :=
  match p.gotoError with
  | some m => .error m
  | none =>
    match p.idleError with
    | some m => .error m
    | none => .ok ("Successfully opened web page: " ++ url)

/-- Embedding of `goToPage.execute` (second suite): the try/catch
converts a navigation failure into a string that does not repeat the
URL. -/
def goToPage_execute (p : NavPage) (url : String) : String :=
  match p.gotoError with
  | some m =>
      "Failed to navigate or find the essential page elements. Details: " ++ m
  | none => "Successfully navigated to " ++ url ++ " and the page is ready."

/-! ### Page-markup retrieval -/

/-- Model of `s.slice(0, n)` on a JavaScript string. -/
def jsSlice (s : String) (n : Nat) : String :=
  String.mk (s.data.take n)

/-- Embedding of `Get_Page_HTML.execute` (first suite) on the markup
string returned by `page.content()`: a hard-coded 20000-character
limit. -/
def Get_Page_HTML_execute (html : String) : String :=
  if html.length > 20000 then jsSlice html 20000 ++ "... [HTML Truncated]"
  else html

/-- Embedding of `getPageHTML.execute` (second suite): a hard-coded
10000-character limit. -/
def getPageHTML_execute (html : String) : String :=
  if html.length > 10000 then jsSlice html 10000 ++ "... [truncated]"
  else html

/-- The markup-retrieval operation as the specification words it, with
a caller-specified `maxLength` boundary; stated for comparison with the
source functions, whose boundary is hard-coded. -/
def getMarkup_spec (maxLength : Nat) (html : String) : String :=
  if html.length > maxLength then jsSlice html maxLength ++ "... [HTML Truncated]"
  else html

/-! ### Timestamps and screenshot paths -/

/-- The calendar fields of one `new Date()` observation, as
`toISOString` renders them. -/
structure DateParts where
  year : Nat
  month : Nat
  day : Nat
  hour : Nat
  minute : Nat
  second : Nat
  ms : Nat
deriving DecidableEq, Repr

/-- The ASCII digit character of `n % 10`. -/
def digitChar10 (n : Nat) : Char :=
  Char.ofNat (48 + n % 10)

/-- Two-digit zero-padded rendering. -/
def pad2 (n : Nat) : List Char :=
  [digitChar10 (n / 10), digitChar10 n]

/-- Three-digit zero-padded rendering. -/
def pad3 (n : Nat) : List Char :=
  [digitChar10 (n / 100), digitChar10 (n / 10), digitChar10 n]

/-- Four-digit zero-padded rendering. -/
def pad4 (n : Nat) : List Char :=
  [digitChar10 (n / 1000), digitChar10 (n / 100), digitChar10 (n / 10), digitChar10 n]

/-- The date-and-seconds front segment `YYYY-MM-DDTHH:MM:SS` of the
ISO rendering. -/
def isoFrontChars (d : DateParts) : List Char :=
  pad4 d.year ++ '-' :: pad2 d.month ++ '-' :: pad2 d.day ++
  'T' :: pad2 d.hour ++ ':' :: pad2 d.minute ++ ':' :: pad2 d.second

/-- Model of `new Date().toISOString()`:
`YYYY-MM-DDTHH:MM:SS.mmmZ`. -/
def isoChars (d : DateParts) : List Char :=
  isoFrontChars d ++ '.' :: pad3 d.ms ++ ['Z']

/-- The per-character action of `.replace(/[:.]/g, '-')`. -/
def replChar (c : Char) : Char :=
  if c == ':' || c == '.' then '-' else c

/-- Embedding of the `timestamp` helper shared by both suites. -/
def timestampStr (d : DateParts) : String :=
  String.mk ((isoChars d).map replChar)

/-- Model of `path.join(a, b)` for the slash-free names used here. -/
def pathJoin (a b : String) : String :=
  a ++ "/" ++ b

/-- Both observations fall in the same wall-clock second (the
millisecond field may differ). -/
def sameSecond (d1 d2 : DateParts) : Bool :=
  d1.year == d2.year && d1.month == d2.month && d1.day == d2.day &&
  d1.hour == d2.hour && d1.minute == d2.minute && d1.second == d2.second

/-- The filename chosen by `Take_Screenshot.execute` (first suite):
`filename || default` uses the hint verbatim whenever it is truthy, and
only the timestamp fallback carries a `.png` extension. -/
def Take_Screenshot_filename (d : DateParts) (filename : Option String) : String :=
  match filename with
  | some f => if f == "" then "screenshot-" ++ timestampStr d ++ ".png" else f
  | none => "screenshot-" ++ timestampStr d ++ ".png"

/-- The path written by `Take_Screenshot.execute`. -/
def Take_Screenshot_path (dir : String) (d : DateParts) (filename : Option String) : String :=
  pathJoin dir (Take_Screenshot_filename d filename)

/-- For a character list, the suffix starting at its last `.`
(inclusive), if any. -/
def afterLastDot : List Char → Option (List Char)
  | [] => none
  | c :: t =>
    match afterLastDot t with
    | some r => some r
    | none => if c == '.' then some (c :: t) else none

/-- The basename characters of a path: everything after the last
slash. -/
def basenameChars (s : String) : List Char :=
  (s.data.reverse.takeWhile (fun c => c != '/')).reverse

/-- Model of Node `path.extname`: the suffix of the basename from its
last dot, unless that dot is the leading character. -/
def extname (s : String) : String :=
  match basenameChars s with
  | [] => ""
  | _ :: t =>
    match afterLastDot t with
    | some r => String.mk r
    | none => ""

/-- The filename chosen by `takeScreenshot.execute` (second suite):
hint or timestamp fallback, then `.png` appended exactly when
`path.extname` of the base name is empty. -/
def takeScreenshot_filename (d : DateParts) (filename : Option String) : String :=
  let base0 :=
    match filename with
    | some f => if f == "" then "screenshot-" ++ timestampStr d else f
    | none => "screenshot-" ++ timestampStr d
  if extname base0 == "" then base0 ++ ".png" else base0

/-- The path written by `takeScreenshot.execute`. -/
def takeScreenshot_path (dir : String) (d : DateParts) (filename : Option String) : String :=
  pathJoin dir (takeScreenshot_filename d filename)

/-! ### DOM element listings -/

/-- The per-element browser state consulted by the two listing tools:
tag name (in its canonical lower-case DOM form), the `id`, `type`,
`role`, `aria-label` and `title` attributes (empty string standing for
an absent attribute, as both are falsy), an `onclick` handler flag,
rendered text and value, the `offsetWidth`/`offsetHeight` layout sizes
and the bounding-client rectangle. -/
structure DomElem where
  tag : String
  idAttr : String
  typeAttr : String
  role : String
  ariaLabel : String
  title : String
  onclick : Bool
  innerText : String
  value : String
  offsetWidth : Nat
  offsetHeight : Nat
  rectLeft : Int
  rectTop : Int
  rectW : Nat
  rectH : Nat
deriving DecidableEq, Repr

/-- JavaScript `a || b` on strings: the empty string is falsy. -/
def jsOr (a b : String) : String :=
  if a == "" then b else a

/-- Membership in the `GET_DOM_ELEMENTS` selector list
`a, button, input[type=submit], input[type=button], [role='button'],
[role='link']`. -/
def gdeSel (e : DomElem) : Bool :=
  e.tag == "a" || e.tag == "button" ||
  (e.tag == "input" && (e.typeAttr == "submit" || e.typeAttr == "button")) ||
  e.role == "button" || e.role == "link"

/-- The summary record `GET_DOM_ELEMENTS` pushes per element. -/
structure DomSummary where
  text : String
  selector : String
deriving DecidableEq, Repr

/-- The summary built for one element:
`el.innerText || el.value || el.getAttribute('aria-label') || ""` and
`el.tagName.toLowerCase() + (el.id ? '#' + el.id : "")`. -/
def gdeMk (e : DomElem) : DomSummary :=
  { text := jsOr e.innerText (jsOr e.value (jsOr e.ariaLabel ""))
    selector := e.tag ++ (if e.idAttr == "" then "" else "#" ++ e.idAttr) }

/-- Embedding of the `GET_DOM_ELEMENTS.execute` page evaluation
(first suite): selector matches, filtered to elements with positive
`offsetWidth` and `offsetHeight`, in document order. -/
def GET_DOM_ELEMENTS_execute (page : List DomElem) : List DomSummary :=
  (page.filter (fun e =>
    gdeSel e && decide (0 < e.offsetWidth) && decide (0 < e.offsetHeight))).map gdeMk

/-- Membership in the `getPageElements` selector list
`a, button, input[type="submit"], input[type="button"],
[role="button"], [onclick]`. -/
def gpeSel (e : DomElem) : Bool :=
  e.tag == "a" || e.tag == "button" ||
  (e.tag == "input" && (e.typeAttr == "submit" || e.typeAttr == "button")) ||
  e.role == "button" || e.onclick

/-- Model of `Math.round(left + width / 2)` on integral rectangle
coordinates (half values round up). -/
def jsRoundMid (left : Int) (size : Nat) : Int :=
  (2 * left + (size : Int) + 1) / 2

/-- The summary record `getPageElements` maps per element. -/
structure PageElemSummary where
  id : Nat
  text : String
  role : String
  x : Int
  y : Int
deriving DecidableEq, Repr

/-- Embedding of the `getPageElements.execute` page evaluation
(second suite): selector matches mapped with a one-based index and
centre coordinates, with no visibility filtering at all. -/
def getPageElements_execute (page : List DomElem) : List PageElemSummary :=
  (page.filter gpeSel).enum.map (fun p =>
    { id := p.1 + 1
      text := jsOr p.2.innerText (jsOr p.2.ariaLabel (jsOr p.2.title ""))
      role := p.2.tag
      x := jsRoundMid p.2.rectLeft p.2.rectW
      y := jsRoundMid p.2.rectTop p.2.rectH })

/-! ### Find elements by text -/

/-- The element state consulted by the `findElementsByText` tree walk,
one record per element in document traversal order. -/
structure TextElem where
  tag : String
  innerText : String
  outerHTML : String
  rectLeft : Int
  rectTop : Int
  rectW : Nat
  rectH : Nat
deriving DecidableEq, Repr

/-- The match predicate of `findElementsByText`: truthy (non-empty)
`innerText` containing the search text case-insensitively, and a
positive bounding rectangle. -/
def ftPred (t : String) (e : TextElem) : Bool :=
  !(e.innerText == "") && containsCI e.innerText t &&
  decide (0 < e.rectW) && decide (0 < e.rectH)

/-- The record pushed per matching element. -/
structure TextMatch where
  tag : String
  text : String
  selector : String
  x : Int
  y : Int
deriving DecidableEq, Repr

/-- The match record of one element: tag, trimmed text, the first 100
characters of the outer HTML, and centre coordinates. -/
def ftMk (e : TextElem) : TextMatch :=
  { tag := e.tag
    text := e.innerText.trim
    selector := jsSlice e.outerHTML 100
    x := jsRoundMid e.rectLeft e.rectW
    y := jsRoundMid e.rectTop e.rectH }

/-- Embedding of the `findElementsByText.execute` page evaluation: the
matches collected by the document-order tree walk. -/
def findElementsByText_matches (body : List TextElem) (t : String) : List TextMatch :=
  (body.filter (ftPred t)).map ftMk

/-! ### Screenshot directory creation -/

/-- Model of `fs.existsSync` + `fs.mkdirSync`: the directory list after
ensuring `d` exists. -/
def mkdirIfAbsent (dirs : List String) (d : String) : List String :=
  if d ∈ dirs then dirs else dirs ++ [d]

/-- Embedding of the directory effect of calling `createBrowserTools`
itself (both suites): the screenshots directory is created during
construction, before any tool runs. -/
def createBrowserTools_dirs (dirs : List String) (cwd : String) : List String :=
  mkdirIfAbsent dirs (pathJoin cwd "screenshots")

/-- The directory effect of one `Take_Screenshot.execute` invocation:
the tool body contains no `mkdirSync`, so the directory list is
untouched (the screenshot primitive writes a file only). -/
def Take_Screenshot_dirs (dirs : List String) : List String :=
  dirs

/-! ### Concrete instances used to instantiate the theorems -/

/-- A click primitive that never throws. -/
def noThrow : ClickElem → Option String := fun _ => none

/-- A link whose accessible name contains the word Submit. -/
def linkSubmitForm : ClickElem :=
  ⟨"link", "Submit form", "Submit form", []⟩

/-- A button labelled Submit. -/
def buttonSubmit : ClickElem :=
  ⟨"button", "Submit", "Submit", []⟩

/-- A generic element whose visible text is exactly Submit. -/
def divSubmit : ClickElem :=
  ⟨"generic", "", "Submit", []⟩

/-- A generic element reachable only through a CSS selector. -/
def cssOnlyElem : ClickElem :=
  ⟨"generic", "", "no matching words here", ["#go"]⟩

/-- A page holding both a matching link and a matching button. -/
def pageButtonAndLink : ClickPage :=
  ⟨[linkSubmitForm, buttonSubmit], noThrow⟩

/-- A page holding only the matching link. -/
def pageLinkOnly : ClickPage :=
  ⟨[linkSubmitForm], noThrow⟩

/-- A page holding only the exact-text element. -/
def pageTextOnly : ClickPage :=
  ⟨[divSubmit], noThrow⟩

/-- A page holding only the CSS-addressable element. -/
def pageCssOnly : ClickPage :=
  ⟨[cssOnlyElem], noThrow⟩

/-- The empty page. -/
def pageEmpty : ClickPage :=
  ⟨[], noThrow⟩

/-- A button whose visible text and accessible name are literally a
single opening parenthesis. -/
def parenBtn : ClickElem :=
  ⟨"button", "(", "(", []⟩

/-- A page holding only `parenBtn`. -/
def pageParen : ClickPage :=
  ⟨[parenBtn], noThrow⟩

/-- A button labelled hello, whose text nowhere contains a dot or a
star. -/
def helloBtn : ClickElem :=
  ⟨"button", "hello", "hello", []⟩

/-- A page holding only `helloBtn`. -/
def pageHello : ClickPage :=
  ⟨[helloBtn], noThrow⟩

/-- A navigation environment whose `page.goto` rejects with a timeout
message. -/
def navTimeout : NavPage :=
  ⟨some "Timeout 60000ms exceeded.", none⟩

/-- A navigation environment whose `page.goto` rejects with a
DNS-failure message. -/
def navRefused : NavPage :=
  ⟨some "net::ERR_NAME_NOT_RESOLVED", none⟩

/-- A 500-character document. -/
def doc500 : String := String.mk (List.replicate 500 'a')

/-- A 20001-character document. -/
def doc20001 : String := String.mk (List.replicate 20001 'a')

/-- A 10001-character document. -/
def doc10001 : String := String.mk (List.replicate 10001 'b')

/-- One concrete clock observation. -/
def dateA : DateParts := ⟨2026, 10, 11, 12, 30, 45, 500⟩

/-- A second observation inside the same wall-clock second, one
millisecond later. -/
def dateB : DateParts := ⟨2026, 10, 11, 12, 30, 45, 501⟩

/-- A one-by-one-pixel button: the inclusion boundary case. -/
def btn1x1 : DomElem :=
  ⟨"button", "", "", "", "", "", false, "Go", "", 1, 1, 0, 0, 1, 1⟩

/-- A zero-sized button. -/
def zeroBtn : DomElem :=
  ⟨"button", "", "", "", "", "", false, "Hidden", "", 0, 0, 0, 0, 0, 0⟩

/-- A plain non-interactive element matched by no selector. -/
def plainDiv : DomElem :=
  ⟨"div", "", "", "", "", "", false, "just text", "", 10, 10, 0, 0, 10, 10⟩

/-- A visible element whose rendered text is empty. -/
def emptyTextDiv : TextElem :=
  ⟨"div", "", "<div></div>", 0, 0, 3, 3⟩

/-- A visible button whose rendered text is Submit. -/
def submitTextBtn : TextElem :=
  ⟨"button", "Submit", "<button>Submit</button>", 0, 0, 5, 5⟩

/-! ### Helper lemmas about the string primitives -/

theorem listStartsWith_self_append (p m : List Char) :
    listStartsWith p (p ++ m) = true := by
  induction p with
  | nil => rfl
  | cons a as ih => simp [listStartsWith, ih]

theorem listStartsWith_append_right {p l : List Char} (m : List Char)
    (h : listStartsWith p l = true) : listStartsWith p (l ++ m) = true := by
  induction p generalizing l with
  | nil => rfl
  | cons a as ih =>
    cases l with
    | nil => simp [listStartsWith] at h
    | cons b bs =>
      simp only [listStartsWith, Bool.and_eq_true] at h ⊢
      exact ⟨h.1, ih h.2⟩

theorem listStartsWith_append_cancel (x u v : List Char) :
    listStartsWith (x ++ u) (x ++ v) = listStartsWith u v := by
  induction x with
  | nil => rfl
  | cons a as ih => simp [listStartsWith, ih]

theorem listStartsWith_mem {p l : List Char}
    (h : listStartsWith p l = true) : ∀ c ∈ p, c ∈ l := by
  induction p generalizing l with
  | nil => intro c hc; cases hc
  | cons a as ih =>
    cases l with
    | nil => simp [listStartsWith] at h
    | cons b bs =>
      simp only [listStartsWith, Bool.and_eq_true, beq_iff_eq] at h
      intro c hc
      rcases List.mem_cons.mp hc with h1 | h2
      · exact List.mem_cons.mpr (Or.inl (h1.trans h.1))
      · exact List.mem_cons.mpr (Or.inr (ih h.2 c h2))

theorem listSubstr_of_startsWith {n l : List Char}
    (h : listStartsWith n l = true) : listSubstr n l = true := by
  cases l with
  | nil =>
    cases n with
    | nil => rfl
    | cons a as => simp [listStartsWith] at h
  | cons b bs => simp [listSubstr, h]

theorem listSubstr_sandwich (n x y : List Char) :
    listSubstr n (x ++ (n ++ y)) = true := by
  induction x with
  | nil =>
    simp only [List.nil_append]
    exact listSubstr_of_startsWith (listStartsWith_self_append _ _)
  | cons b bs ih => simp [listSubstr, ih]

theorem strContains_mid (x t y : String) :
    strContains (x ++ t ++ y) t = true := by
  show listSubstr t.data ((x ++ t ++ y).data) = true
  have : (x ++ t ++ y).data = x.data ++ (t.data ++ y.data) := by
    show (x.data ++ t.data) ++ y.data = x.data ++ (t.data ++ y.data)
    exact List.append_assoc _ _ _
  rw [this]
  exact listSubstr_sandwich _ _ _

theorem strStartsWith_of_append {a : String} (b p : String)
    (h : strStartsWith a p = true) : strStartsWith (a ++ b) p = true := by
  show listStartsWith p.data (a.data ++ b.data) = true
  exact listStartsWith_append_right _ h

theorem strEndsWith_append_self (a s : String) :
    strEndsWith (a ++ s) s = true := by
  show listStartsWith s.data.reverse ((a.data ++ s.data).reverse) = true
  rw [List.reverse_append]
  exact listStartsWith_self_append _ _

theorem strEndsWith_append_append (a b s : String) :
    strEndsWith (a ++ s) (b ++ s) = strEndsWith a b := by
  show listStartsWith ((b.data ++ s.data).reverse) ((a.data ++ s.data).reverse)
      = listStartsWith b.data.reverse a.data.reverse
  rw [List.reverse_append, List.reverse_append]
  exact listStartsWith_append_cancel _ _ _

theorem strEndsWith_dot_mem {f : String}
    (h : strEndsWith f ".png" = true) : '.' ∈ f.data := by
  have hmem := listStartsWith_mem h '.'
  have : '.' ∈ (".png" : String).data.reverse := by decide
  have hin := hmem this
  exact List.mem_reverse.mp hin

/-! ### Claim C1: the resolution cascade order -/

/-- Claim C1: for every text target whose pattern compiles, the
strategies apply in the fixed order role-button, role-link, anchored
full-text, raw CSS selector, short-circuiting at the first strategy
with at least one match and acting on the first match in document
order; in particular, whenever some role button element matches the
target, the role-button strategy is the one used. -/
theorem claim1_cascade_order (p : ClickPage) (t : String) (re : JsRegex)
    (hc : compileRegex t = some re) :
    (∀ b bs, p.elements.filter (isButtonMatch re) = b :: bs →
      clickResolve p t = .ok (some (.roleButton, b)))
    ∧ (p.elements.filter (isButtonMatch re) = [] →
       ∀ e es, p.elements.filter (isLinkMatch re) = e :: es →
         clickResolve p t = .ok (some (.roleLink, e)))
    ∧ (p.elements.filter (isButtonMatch re) = [] →
       p.elements.filter (isLinkMatch re) = [] →
       ∀ e es, p.elements.filter (isTextMatch re) = e :: es →
         clickResolve p t = .ok (some (.textMatch, e)))
    ∧ (p.elements.filter (isButtonMatch re) = [] →
       p.elements.filter (isLinkMatch re) = [] →
       p.elements.filter (isTextMatch re) = [] →
       ∀ e es, p.elements.filter (isCssMatch t) = e :: es →
         clickResolve p t = .ok (some (.cssSelector, e))) := by
  refine ⟨?_, ?_, ?_, ?_⟩
  · intro b bs hb
    simp [clickResolve, hc, hb]
  · intro h1 e es he
    simp [clickResolve, hc, h1, he]
  · intro h1 h2 e es he
    simp [clickResolve, hc, h1, h2, he]
  · intro h1 h2 h3 e es he
    simp [clickResolve, hc, h1, h2, h3, he]

/-- Witness for C1 at concrete pages: the button wins over an earlier
link whose name also matches by substring; each later strategy fires
exactly when all earlier ones are empty. -/
theorem claim1_cascade_order_witness :
    clickResolve pageButtonAndLink "Submit"
      = .ok (some (.roleButton, buttonSubmit))
    ∧ clickResolve pageLinkOnly "Submit" = .ok (some (.roleLink, linkSubmitForm))
    ∧ clickResolve pageTextOnly "Submit" = .ok (some (.textMatch, divSubmit))
    ∧ clickResolve pageCssOnly "#go" = .ok (some (.cssSelector, cssOnlyElem)) := by
  refine ⟨?_, ?_, ?_, ?_⟩
  · exact (claim1_cascade_order pageButtonAndLink "Submit" (reOfD "Submit") rfl).1
      buttonSubmit [] (by decide)
  · exact (claim1_cascade_order pageLinkOnly "Submit" (reOfD "Submit") rfl).2.1
      (by decide) linkSubmitForm [] (by decide)
  · exact (claim1_cascade_order pageTextOnly "Submit" (reOfD "Submit") rfl).2.2.1
      (by decide) (by decide) divSubmit [] (by decide)
  · exact (claim1_cascade_order pageCssOnly "#go" (reOfD "#go") rfl).2.2.2
      (by decide) (by decide) (by decide) cssOnlyElem [] (by decide)

/-! ### Claim C10: the target is interpreted as a regular expression -/

/-- Claim C10: the click target is fed to the RegExp constructor, not
matched literally: the target `(` yields a failure outcome even though
a button whose visible text is literally `(` is on the page, while the
target `.*` clicks a button whose text does not contain `.*`
literally. -/
theorem claim10_regex_target :
    strStartsWith (Click_Element_execute pageParen "(") "Error:" = true
    ∧ pageParen.elements = [parenBtn]
    ∧ parenBtn.text = "("
    ∧ Click_Element_execute pageHello ".*"
        = "Successfully clicked button with text: .*"
    ∧ pageHello.elements = [helloBtn]
    ∧ containsCI helloBtn.text ".*" = false := by
  exact ⟨by decide, rfl, rfl, by decide, rfl, by decide⟩

/-! ### Claim C2: tool boundaries and raised exceptions -/

/-- Claim C2 counterexample: `Open_web_page.execute` has no try/catch,
so a rejection of `page.goto` propagates out of the tool boundary as a
raised exception instead of a returned string outcome. -/
theorem claim2_counterexample :
    Open_web_page_execute navTimeout "https://example.com"
      = Except.error "Timeout 60000ms exceeded." := rfl

/-- Claim C2, amended: the try/catch-wrapped `Click_Element` tool
returns a string outcome on every input (its embedding is
`String`-valued), and in particular returns the not-found outcome,
rather than raising, when no strategy matches any element; the
unwrapped `Open_web_page` and `GET_DOM_ELEMENTS` tools, by contrast,
let exceptions propagate. -/
theorem claim2_click_not_found (p : ClickPage) (t : String) (re : JsRegex)
    (hc : compileRegex t = some re)
    (h : ∀ e ∈ p.elements, isButtonMatch re e = false ∧ isLinkMatch re e = false
      ∧ isTextMatch re e = false ∧ isCssMatch t e = false) :
    Click_Element_execute p t
      = "Error: No element found for target \"" ++ t ++ "\"." := by
  have hb : p.elements.filter (isButtonMatch re) = [] :=
    List.filter_eq_nil_iff.mpr (fun e he => by simp [(h e he).1])
  have hl : p.elements.filter (isLinkMatch re) = [] :=
    List.filter_eq_nil_iff.mpr (fun e he => by simp [(h e he).2.1])
  have ht : p.elements.filter (isTextMatch re) = [] :=
    List.filter_eq_nil_iff.mpr (fun e he => by simp [(h e he).2.2.1])
  have hcs : p.elements.filter (isCssMatch t) = [] :=
    List.filter_eq_nil_iff.mpr (fun e he => by simp [(h e he).2.2.2])
  simp [Click_Element_execute, clickResolve, hc, hb, hl, ht, hcs]

/-- Witness for the amended C2 on the empty page. -/
theorem claim2_click_not_found_witness :
    Click_Element_execute pageEmpty "x"
      = "Error: No element found for target \"" ++ "x" ++ "\"." :=
  claim2_click_not_found pageEmpty "x" (reOfD "x") rfl
    (by intro e he; cases he)

/-! ### Claim C3: the shape of failure outcomes -/

/-- Claim C3 counterexample: the second-suite `goToPage` failure
outcome starts with `Failed`, not with the claimed `Error:` prefix, and
does not contain the navigation target. -/
theorem claim3_counterexample :
    strStartsWith (goToPage_execute navRefused "https://example.com")
      "Error:" = false
    ∧ strContains (goToPage_execute navRefused "https://example.com")
        "https://example.com" = false
    ∧ strStartsWith (goToPage_execute navRefused "https://example.com")
        "Failed" = true := by
  exact ⟨by decide, by decide, by decide⟩

theorem clickSuccessMessage_starts (s : ResolveStrategy) (t : String) :
    strStartsWith (clickSuccessMessage s t) "Successfully" = true := by
  cases s <;> simp only [clickSuccessMessage] <;>
    exact strStartsWith_of_append _ _ (by decide)

/-- Claim C3, amended: every failed `Click_Element` invocation (first
suite) yields an outcome starting with the failure marker and
containing the literal target string; the second-suite tools use a
different marker, and `goToPage` omits the target. -/
theorem claim3_click_failure_shape (p : ClickPage) (t : String)
    (h : strStartsWith (Click_Element_execute p t) "Successfully" = false) :
    strStartsWith (Click_Element_execute p t) "Error:" = true
    ∧ strContains (Click_Element_execute p t) t = true := by
  rcases hres : clickResolve p t with m | oe
  · simp only [Click_Element_execute, hres]
    constructor
    · exact strStartsWith_of_append _ _ (strStartsWith_of_append _ _
        (strStartsWith_of_append _ _ (by decide)))
    · have hassoc : "Error: Failed to click \"" ++ t ++ "\". Details: " ++ m
          = "Error: Failed to click \"" ++ t ++ ("\". Details: " ++ m) :=
        String.append_assoc _ _ _
      rw [hassoc]
      exact strContains_mid _ _ _
  · rcases oe with _ | ⟨s, e⟩
    · simp only [Click_Element_execute, hres]
      exact ⟨strStartsWith_of_append _ _ (strStartsWith_of_append _ _ (by decide)),
        strContains_mid _ _ _⟩
    · rcases hclick : p.clickError e with _ | m
      · exfalso
        simp only [Click_Element_execute, hres, hclick] at h
        rw [clickSuccessMessage_starts s t] at h
        simp at h
      · simp only [Click_Element_execute, hres, hclick]
        constructor
        · exact strStartsWith_of_append _ _ (strStartsWith_of_append _ _
            (strStartsWith_of_append _ _ (by decide)))
        · have hassoc : "Error: Failed to click \"" ++ t ++ "\". Details: " ++ m
              = "Error: Failed to click \"" ++ t ++ ("\". Details: " ++ m) :=
          String.append_assoc _ _ _
          rw [hassoc]
          exact strContains_mid _ _ _

/-- Witness for the amended C3: a click on a target matching nothing
returns a failure outcome containing the literal target. -/
theorem claim3_click_failure_shape_witness :
    strStartsWith (Click_Element_execute pageEmpty "missing") "Error:" = true
    ∧ strContains (Click_Element_execute pageEmpty "missing") "missing" = true :=
  claim3_click_failure_shape pageEmpty "missing" (by decide)

/-! ### Claim C4: markup truncation -/

/-- Claim C4 counterexample: the truncation boundary is not
caller-specified; on a 500-character document the code returns all 500
characters unchanged, so it cannot honour a caller-specified boundary
of 100 characters as the specification describes. -/
theorem claim4_counterexample :
    Get_Page_HTML_execute doc500 = doc500
    ∧ doc500.length = 500
    ∧ Get_Page_HTML_execute doc500 ≠ getMarkup_spec 100 doc500 := by
  have hlen : doc500.length = 500 := by
    show (List.replicate 500 'a').length = 500
    exact List.length_replicate 500 'a'
  have h1 : Get_Page_HTML_execute doc500 = doc500 := by
    unfold Get_Page_HTML_execute
    rw [if_neg (by omega)]
  refine ⟨h1, hlen, ?_⟩
  intro heq
  rw [h1] at heq
  have hspec : getMarkup_spec 100 doc500
      = jsSlice doc500 100 ++ "... [HTML Truncated]" := by
    unfold getMarkup_spec
    rw [if_pos (by omega)]
  rw [hspec] at heq
  have hlen2 := congrArg String.length heq
  rw [hlen] at hlen2
  have hslice : (jsSlice doc500 100 ++ "... [HTML Truncated]").length = 120 := by
    show ((doc500.data.take 100) ++ ("... [HTML Truncated]" : String).data).length = 120
    rw [List.length_append, List.length_take]
    have hd : doc500.data.length = 500 := hlen
    rw [hd]
    decide
  rw [hslice] at hlen2
  omega

/-- Claim C4, amended: truncation happens deterministically at a fixed
hard-coded boundary, 20000 characters in `Get_Page_HTML` and 10000 in
`getPageHTML`, not at a caller-specified one: below the boundary the
markup is returned unmodified, above it exactly the boundary-many
leading characters plus the truncation marker are returned. -/
theorem claim4_fixed_limits (html : String) :
    (html.length ≤ 20000 → Get_Page_HTML_execute html = html)
    ∧ (20000 < html.length →
       Get_Page_HTML_execute html = jsSlice html 20000 ++ "... [HTML Truncated]")
    ∧ (html.length ≤ 10000 → getPageHTML_execute html = html)
    ∧ (10000 < html.length →
       getPageHTML_execute html = jsSlice html 10000 ++ "... [truncated]") := by
  refine ⟨?_, ?_, ?_, ?_⟩
  · intro h; unfold Get_Page_HTML_execute; rw [if_neg (by omega)]
  · intro h; unfold Get_Page_HTML_execute; rw [if_pos (by omega)]
  · intro h; unfold getPageHTML_execute; rw [if_neg (by omega)]
  · intro h; unfold getPageHTML_execute; rw [if_pos (by omega)]

/-- Witness for the amended C4 at concrete documents on both sides of
both boundaries. -/
theorem claim4_fixed_limits_witness :
    Get_Page_HTML_execute doc500 = doc500
    ∧ Get_Page_HTML_execute doc20001
        = jsSlice doc20001 20000 ++ "... [HTML Truncated]"
    ∧ getPageHTML_execute doc500 = doc500
    ∧ getPageHTML_execute doc10001
        = jsSlice doc10001 10000 ++ "... [truncated]" := by
  have h500 : doc500.length = 500 := by
    show (List.replicate 500 'a').length = 500
    exact List.length_replicate 500 'a'
  have h20001 : doc20001.length = 20001 := by
    show (List.replicate 20001 'a').length = 20001
    exact List.length_replicate 20001 'a'
  have h10001 : doc10001.length = 10001 := by
    show (List.replicate 10001 'b').length = 10001
    exact List.length_replicate 10001 'b'
  exact ⟨(claim4_fixed_limits doc500).1 (by omega),
    (claim4_fixed_limits doc20001).2.1 (by omega),
    (claim4_fixed_limits doc500).2.2.1 (by omega),
    (claim4_fixed_limits doc10001).2.2.2 (by omega)⟩

/-! ### Claim C7: the interactive-element listings -/

/-- Claim C7 counterexample: `getPageElements` (second suite) applies
no rendered-size filter at all, so a zero-width, zero-height button is
included in its listing, contradicting the claimed inclusion-iff-
positive-size invariant. -/
theorem claim7_counterexample :
    getPageElements_execute [zeroBtn] ≠ []
    ∧ zeroBtn.offsetWidth = 0 ∧ zeroBtn.rectW = 0 := by
  exact ⟨by decide, rfl, rfl⟩

/-- Claim C7, amended: `GET_DOM_ELEMENTS` (first suite) selects its
selector matches in document order and includes an element only under
positive `offsetWidth` and `offsetHeight` (a one-by-one element is
included, zero-sized elements never contribute), returning empty when
nothing matches; `getPageElements` has no size filter. -/
theorem claim7_gde_visibility (page : List DomElem) :
    (∀ e ∈ page, gdeSel e = true → 0 < e.offsetWidth → 0 < e.offsetHeight →
      gdeMk e ∈ GET_DOM_ELEMENTS_execute page)
    ∧ GET_DOM_ELEMENTS_execute page
        = GET_DOM_ELEMENTS_execute (page.filter (fun e =>
            decide (0 < e.offsetWidth) && decide (0 < e.offsetHeight)))
    ∧ ((∀ e ∈ page, gdeSel e = false) → GET_DOM_ELEMENTS_execute page = [])
    ∧ (GET_DOM_ELEMENTS_execute page).Sublist (page.map gdeMk) := by
  refine ⟨?_, ?_, ?_, ?_⟩
  · intro e he hs hw hh
    exact List.mem_map.mpr ⟨e, List.mem_filter.mpr ⟨he, by simp [hs, hw, hh]⟩, rfl⟩
  · unfold GET_DOM_ELEMENTS_execute
    rw [List.filter_filter]
    have taut : ∀ b c d : Bool, (b && c && d) = ((b && c && d) && (c && d)) := by
      decide
    exact congrArg (List.map gdeMk) (List.filter_congr (fun e _ =>
      taut (gdeSel e) (decide (0 < e.offsetWidth)) (decide (0 < e.offsetHeight))))
  · intro h
    unfold GET_DOM_ELEMENTS_execute
    rw [List.filter_eq_nil_iff.mpr (fun e he => by simp [h e he])]
    rfl
  · exact List.Sublist.map gdeMk (List.filter_sublist page)

/-- Witness for the amended C7: the one-by-one boundary element is
included, the zero-size page is invariant under pre-filtering, a page
of unmatched elements yields the empty listing, and the listing is a
document-order sublist. -/
theorem claim7_gde_visibility_witness :
    gdeMk btn1x1 ∈ GET_DOM_ELEMENTS_execute [btn1x1]
    ∧ GET_DOM_ELEMENTS_execute [zeroBtn]
        = GET_DOM_ELEMENTS_execute (List.filter (fun e =>
            decide (0 < e.offsetWidth) && decide (0 < e.offsetHeight)) [zeroBtn])
    ∧ GET_DOM_ELEMENTS_execute [plainDiv] = []
    ∧ (GET_DOM_ELEMENTS_execute [btn1x1]).Sublist ([btn1x1].map gdeMk) :=
  ⟨(claim7_gde_visibility [btn1x1]).1 btn1x1 (by decide) (by decide)
      (by decide) (by decide),
   (claim7_gde_visibility [zeroBtn]).2.1,
   (claim7_gde_visibility [plainDiv]).2.2.1 (by decide),
   (claim7_gde_visibility [btn1x1]).2.2.2⟩

/-! ### Claim C8: find elements by text -/

/-- Claim C8 counterexample: the walk skips elements with falsy
(empty) `innerText`, so with the empty search string a visible element
whose rendered text is empty is not matched, although the empty string
trivially contains the search string. -/
theorem claim8_counterexample :
    findElementsByText_matches [emptyTextDiv] "" = []
    ∧ containsCI emptyTextDiv.innerText "" = true
    ∧ 0 < emptyTextDiv.rectW ∧ 0 < emptyTextDiv.rectH := by
  exact ⟨by decide, by decide, by decide, by decide⟩

/-- Claim C8, amended: `findElementsByText` matches exactly the
elements with non-empty rendered text containing the search string
case-insensitively as a substring and with a positive bounding
rectangle, in document traversal order; zero-sized elements never
contribute. -/
theorem claim8_text_search (body : List TextElem) (t : String) :
    (∀ e ∈ body, e.innerText ≠ "" → containsCI e.innerText t = true →
      0 < e.rectW → 0 < e.rectH → ftMk e ∈ findElementsByText_matches body t)
    ∧ findElementsByText_matches body t
        = findElementsByText_matches (body.filter (fun e =>
            decide (0 < e.rectW) && decide (0 < e.rectH))) t
    ∧ (findElementsByText_matches body t).Sublist (body.map ftMk) := by
  refine ⟨?_, ?_, ?_⟩
  · intro e he hne hci hw hh
    refine List.mem_map.mpr ⟨e, List.mem_filter.mpr ⟨he, ?_⟩, rfl⟩
    have hb : (e.innerText == "") = false := by
      simpa using hne
    simp [ftPred, hb, hci, hw, hh]
  · unfold findElementsByText_matches
    rw [List.filter_filter]
    have : ∀ a b c d : Bool, (a && b && c && d) = ((a && b && c && d) && (c && d)) := by
      decide
    exact congrArg _ (List.filter_congr (fun e _ => by
      simpa [ftPred] using this (!(e.innerText == "")) (containsCI e.innerText t)
        (decide (0 < e.rectW)) (decide (0 < e.rectH)))).symm
  · exact List.Sublist.map ftMk (List.filter_sublist body)

/-- Witness for the amended C8 at a visible Submit button and the
lower-case substring search text. -/
theorem claim8_text_search_witness :
    ftMk submitTextBtn ∈ findElementsByText_matches [submitTextBtn] "sub"
    ∧ findElementsByText_matches [emptyTextDiv] "x"
        = findElementsByText_matches (List.filter (fun e =>
            decide (0 < e.rectW) && decide (0 < e.rectH)) [emptyTextDiv]) "x"
    ∧ (findElementsByText_matches [submitTextBtn] "sub").Sublist
        ([submitTextBtn].map ftMk) :=
  ⟨(claim8_text_search [submitTextBtn] "sub").1 submitTextBtn (by decide)
      (by decide) (by decide) (by decide) (by decide),
   (claim8_text_search [emptyTextDiv] "x").2.1,
   (claim8_text_search [submitTextBtn] "sub").2.2⟩

/-! ### Claim C9: creation of the screenshots directory -/

/-- Claim C9 counterexample: merely constructing the tool suite
creates the screenshots directory (the `mkdirSync` runs in the body of
`createBrowserTools`, before any tool is invoked), so creation is not
deferred to the first screenshot operation. -/
theorem claim9_counterexample :
    createBrowserTools_dirs [] "/work" = ["/work/screenshots"]
    ∧ ("/work/screenshots" ∈ ([] : List String)) = False := by
  exact ⟨by decide, by simp⟩

/-- Claim C9, amended: the screenshots directory is created eagerly
and idempotently during tool-suite construction (if absent), and the
screenshot tool itself performs no directory creation. -/
theorem claim9_eager_directory (dirs : List String) (cwd : String) :
    pathJoin cwd "screenshots" ∈ createBrowserTools_dirs dirs cwd
    ∧ (pathJoin cwd "screenshots" ∈ dirs → createBrowserTools_dirs dirs cwd = dirs)
    ∧ Take_Screenshot_dirs dirs = dirs := by
  refine ⟨?_, ?_, rfl⟩
  · unfold createBrowserTools_dirs mkdirIfAbsent
    by_cases h : pathJoin cwd "screenshots" ∈ dirs
    · rw [if_pos h]; exact h
    · rw [if_neg h]
      exact List.mem_append.mpr (Or.inr (List.mem_singleton.mpr rfl))
  · intro h
    unfold createBrowserTools_dirs mkdirIfAbsent
    rw [if_pos h]

/-- Witness for the amended C9 on a concrete directory state. -/
theorem claim9_eager_directory_witness :
    pathJoin "/work" "screenshots" ∈ createBrowserTools_dirs ["/tmp"] "/work"
    ∧ createBrowserTools_dirs ["/work/screenshots"] "/work" = ["/work/screenshots"]
    ∧ Take_Screenshot_dirs ["/tmp"] = ["/tmp"] :=
  ⟨(claim9_eager_directory ["/tmp"] "/work").1,
   (claim9_eager_directory ["/work/screenshots"] "/work").2.1 (by decide),
   (claim9_eager_directory ["/tmp"] "/work").2.2⟩

/-! ### Claim C5: screenshot filename extensions -/

theorem afterLastDot_none {l : List Char} (h : ∀ c ∈ l, c ≠ '.') :
    afterLastDot l = none := by
  induction l with
  | nil => rfl
  | cons c t ih =>
    have ht : afterLastDot t = none :=
      ih (fun x hx => h x (List.mem_cons_of_mem c hx))
    have hc : (c == '.') = false := by
      simpa using h c (List.mem_cons_self c t)
    simp [afterLastDot, ht, hc]

theorem extname_of_noDot {f : String} (h : ∀ c ∈ f.data, c ≠ '.') :
    extname f = "" := by
  have hbn : ∀ c ∈ basenameChars f, c ≠ '.' := by
    intro c hc
    apply h
    have h1 : c ∈ f.data.reverse.takeWhile (fun x => x != '/') :=
      List.mem_reverse.mp hc
    have h2 : c ∈ f.data.reverse := (List.takeWhile_prefix _).subset h1
    exact List.mem_reverse.mp h2
  cases hb : basenameChars f with
  | nil => unfold extname; rw [hb]
  | cons c t =>
    have ht : afterLastDot t = none := afterLastDot_none (fun x hx => by
      apply hbn
      rw [hb]
      exact List.mem_cons_of_mem c hx)
    have hred : extname f = (match afterLastDot t with
        | some r => String.mk r
        | none => "") := by
      unfold extname
      rw [hb]
    rw [hred, ht]

theorem timestampStr_noDot (d : DateParts) :
    ∀ c ∈ (timestampStr d).data, c ≠ '.' := by
  intro c hc hEq
  have hm : c ∈ (isoChars d).map replChar := hc
  rcases List.mem_map.mp hm with ⟨c0, _, hmap⟩
  subst hEq
  unfold replChar at hmap
  by_cases h0 : (c0 == ':' || c0 == '.') = true
  · rw [if_pos h0] at hmap
    exact absurd hmap (by decide)
  · rw [if_neg h0] at hmap
    simp only [Bool.or_eq_true, beq_iff_eq, not_or] at h0
    exact h0.2 hmap

theorem strEndsWith_png_of_noDot {f : String}
    (h : ∀ c ∈ f.data, c ≠ '.') : strEndsWith f ".png" = false := by
  cases hE : strEndsWith f ".png" with
  | false => rfl
  | true => exact absurd rfl (h '.' (strEndsWith_dot_mem hE))

/-- Claim C5 counterexample: `Take_Screenshot` (first suite) uses the
name hint verbatim, so the hint `report` produces an extensionless
filename, not `report.png`. -/
theorem claim5_counterexample :
    Take_Screenshot_filename dateA (some "report") = "report"
    ∧ strEndsWith "report" ".png" = false
    ∧ strEndsWith "report" ".jpg" = false
    ∧ strEndsWith "report" ".jpeg" = false := by
  exact ⟨by decide, by decide, by decide, by decide⟩

/-- Claim C5, amended: `takeScreenshot` (second suite) appends `.png`
exactly when the hint has no extension, so a dot-free hint and both
timestamp fallbacks yield names ending in exactly one `.png`;
`Take_Screenshot` (first suite) guarantees this only for its timestamp
fallback, using any supplied hint verbatim. -/
theorem claim5_extension_once (d : DateParts) (f : String)
    (hne : f ≠ "") (hdot : ∀ c ∈ f.data, c ≠ '.') :
    (takeScreenshot_filename d (some f) = f ++ ".png"
     ∧ strEndsWith (f ++ ".png") ".png" = true
     ∧ strEndsWith (f ++ ".png") ".png.png" = false)
    ∧ (strEndsWith (takeScreenshot_filename d none) ".png" = true
       ∧ strEndsWith (takeScreenshot_filename d none) ".png.png" = false)
    ∧ (strEndsWith (Take_Screenshot_filename d none) ".png" = true
       ∧ strEndsWith (Take_Screenshot_filename d none) ".png.png" = false) := by
  have hsplit : (".png.png" : String) = ".png" ++ ".png" := rfl
  have hfb : ∀ c ∈ ("screenshot-" ++ timestampStr d).data, c ≠ '.' := by
    intro c hc
    have hc2 : c ∈ ("screenshot-" : String).data ++ (timestampStr d).data := hc
    rcases List.mem_append.mp hc2 with h1 | h2
    · revert h1
      have hlit : ∀ x ∈ ("screenshot-" : String).data, x ≠ '.' := by decide
      exact hlit c
    · exact timestampStr_noDot d c h2
  refine ⟨?_, ?_, ?_⟩
  · have hf : (f == "") = false := by simpa using hne
    have hbase : takeScreenshot_filename d (some f) = f ++ ".png" := by
      simp only [takeScreenshot_filename, hf, Bool.false_eq_true, if_false]
      rw [extname_of_noDot hdot]
      simp
    refine ⟨hbase, strEndsWith_append_self _ _, ?_⟩
    rw [hsplit, strEndsWith_append_append]
    exact strEndsWith_png_of_noDot hdot
  · have hbase : takeScreenshot_filename d none
        = ("screenshot-" ++ timestampStr d) ++ ".png" := by
      simp only [takeScreenshot_filename]
      rw [extname_of_noDot hfb]
      simp
    rw [hbase]
    refine ⟨strEndsWith_append_self _ _, ?_⟩
    rw [hsplit, strEndsWith_append_append]
    exact strEndsWith_png_of_noDot hfb
  · have hbase : Take_Screenshot_filename d none
        = ("screenshot-" ++ timestampStr d) ++ ".png" := rfl
    rw [hbase]
    refine ⟨strEndsWith_append_self _ _, ?_⟩
    rw [hsplit, strEndsWith_append_append]
    exact strEndsWith_png_of_noDot hfb

/-- Witness for the amended C5 at the hint `report` and a concrete
clock value. -/
theorem claim5_extension_once_witness :
    (takeScreenshot_filename dateA (some "report") = "report" ++ ".png"
     ∧ strEndsWith ("report" ++ ".png") ".png" = true
     ∧ strEndsWith ("report" ++ ".png") ".png.png" = false)
    ∧ (strEndsWith (takeScreenshot_filename dateA none) ".png" = true
       ∧ strEndsWith (takeScreenshot_filename dateA none) ".png.png" = false)
    ∧ (strEndsWith (Take_Screenshot_filename dateA none) ".png" = true
       ∧ strEndsWith (Take_Screenshot_filename dateA none) ".png.png" = false) :=
  claim5_extension_once dateA "report" (by decide) (by decide)

/-! ### Claim C6: timestamp collisions -/

theorem string_data_append (a b : String) : (a ++ b).data = a.data ++ b.data :=
  rfl

theorem digitChar10_inj_mod {a b : Nat} (h : digitChar10 a = digitChar10 b) :
    a % 10 = b % 10 := by
  have key : ∀ x, x < 10 → ∀ y, y < 10 →
      Char.ofNat (48 + x) = Char.ofNat (48 + y) → x = y := by decide
  exact key _ (Nat.mod_lt _ (by omega)) _ (Nat.mod_lt _ (by omega)) h

theorem replChar_digit (n : Nat) : replChar (digitChar10 n) = digitChar10 n := by
  have key : ∀ x, x < 10 →
      replChar (Char.ofNat (48 + x)) = Char.ofNat (48 + x) := by decide
  exact key _ (Nat.mod_lt _ (by omega))

theorem timestampStr_data_rev (d : DateParts) :
    (timestampStr d).data.reverse
      = 'Z' :: digitChar10 d.ms :: digitChar10 (d.ms / 10)
        :: digitChar10 (d.ms / 100) :: '-'
        :: (List.map replChar (isoFrontChars d)).reverse := by
  have hZ : replChar 'Z' = 'Z' := by decide
  have hdot : replChar '.' = '-' := by decide
  show ((isoChars d).map replChar).reverse = _
  rw [isoChars]
  simp [pad3, List.map_append, List.reverse_append, hZ, hdot, replChar_digit,
    List.append_assoc, List.cons_append]

/-- Claim C6 counterexample: the fallback filename is a pure function
of the observed clock value, which has millisecond precision and no
disambiguating counter; two no-hint invocations observing the same
clock millisecond (here both observing `dateA`, inside one second)
produce the identical path, so the second write silently overwrites the
first. -/
theorem claim6_counterexample :
    sameSecond dateA dateA = true
    ∧ Take_Screenshot_path "screenshots" dateA none
        = Take_Screenshot_path "screenshots" dateA none :=
  ⟨by decide, rfl⟩

/-- Claim C6, amended: two no-hint screenshot invocations within the
same second produce distinct paths exactly when their observed
millisecond components differ; the rendered millisecond field makes the
fallback distinguishing at millisecond, not second, granularity. -/
theorem claim6_distinct_ms (dir : String) (d1 d2 : DateParts)
    (_hs : sameSecond d1 d2 = true) (hm1 : d1.ms < 1000) (hm2 : d2.ms < 1000)
    (hne : d1.ms ≠ d2.ms) :
    Take_Screenshot_path dir d1 none ≠ Take_Screenshot_path dir d2 none := by
  intro heq
  apply hne
  have hd := congrArg (fun s : String => s.data.reverse) heq
  simp only [Take_Screenshot_path, pathJoin, Take_Screenshot_filename,
    string_data_append, List.reverse_append, List.append_assoc] at hd
  rw [timestampStr_data_rev d1, timestampStr_data_rev d2] at hd
  have hd2 := List.append_cancel_left hd
  injection hd2 with hZ hd3
  injection hd3 with h1 hd4
  injection hd4 with h2 hd5
  injection hd5 with h3 hd6
  have m1 := digitChar10_inj_mod h1
  have m2 := digitChar10_inj_mod h2
  have m3 := digitChar10_inj_mod h3
  omega

/-- Witness for the amended C6: clock observations one millisecond
apart inside the same second give distinct paths. -/
theorem claim6_distinct_ms_witness :
    Take_Screenshot_path "screenshots" dateA none
      ≠ Take_Screenshot_path "screenshots" dateB none :=
  claim6_distinct_ms "screenshots" dateA dateB (by decide) (by decide)
    (by decide) (by decide)
